import Mathlib

/-!
# A shallow embedding of the type-uniquing engine of `lib/AST/ASTContext.cpp`

Types are identified by their arena index (a `Nat`): `new (C) ...` is modelled
as appending a `NodeInfo` to `ASTContext.nodes`, so the returned index is the
node's identity, and pointer equality in the C++ source becomes equality of
indices.  Each per-kind uniquing table (`llvm::DenseMap`/`llvm::FoldingSet`
keyed by a structural profile) is modelled as an association list from the
profile to the node index; `FindNodeOrInsertPos`/`InsertNode` and the
`DenseMap` `Entry` idiom both become the `getOrCreate` find-or-insert below.
Assertions (`assert(...)`) are modelled by returning `Except String`, the
error carrying the assertion message.

A node's canonicality is the C++ "non-null ASTContext back-reference": the
`canonical : Bool` field is `true` exactly when the constructor received `&C`
rather than a null context.  Types produced outside the factories of this
file (builtin singletons, declared types, type variables, error types, ...)
are modelled by the `external` payload, whose flags are arbitrary.
-/

/-- The kind tag of a nominal type declaration, read by
`BoundGenericType::get` to dispatch to `BoundGenericClassType`,
`BoundGenericStructType` or `BoundGenericOneOfType`. -/
inductive NominalDeclKind where
  | classKind
  | structKind
  | oneOfKind
deriving DecidableEq, Repr

/-- An opaque `NominalTypeDecl *`: the identity (`declId`, standing for the
pointer) together with the declaration kind consulted for dispatch. -/
structure NominalTypeDecl where
  declId : Nat
  kind : NominalDeclKind
deriving DecidableEq, Repr

/-- A `TupleTypeElt`: element type, optional name, optional default-value
expression handle (`Init`), optional vararg base type.  The name, the
expression handle and the vararg base type are opaque identities; `none`
models a null pointer.  Element types are modelled as always non-null (a
null element type cannot reach the claims considered here: it would fault
in `ParenType::get` and in the `hasTypeVariable` queries). -/
structure TupleTypeElt where
  ty : Nat
  name : Option Nat
  eltInit : Option Nat
  varargBaseTy : Option Nat
deriving DecidableEq, Repr

/-- `TupleTypeElt::hasName()`: the name identifier is non-null. -/
def TupleTypeElt.hasName (e : TupleTypeElt) : Bool := e.name.isSome

/-- `TupleTypeElt::hasInit()`: the default-value expression is non-null. -/
def TupleTypeElt.hasInit (e : TupleTypeElt) : Bool := e.eltInit.isSome

/-- `TupleTypeElt::isVararg()`: the vararg base type is non-null. -/
def TupleTypeElt.isVararg (e : TupleTypeElt) : Bool := e.varargBaseTy.isSome

/-- The structural payload of an allocated type node. -/
inductive NodePayload where
  /-- A type created outside the factories modelled here (builtin singleton,
  declared type, type variable, ...); the tag is its only structure. -/
  | external (tag : Nat)
  | builtinInteger (bitWidth : Nat)
  | paren (underlying : Nat)
  | tuple (fields : List TupleTypeElt)
  | function (input result : Nat) (autoClosure : Bool)
  | polymorphicFunction (input result params : Nat)
  | array (base size : Nat)
  | structType (decl : Nat) (parent : Option Nat)
  | boundGenericClass (decl : NominalTypeDecl) (parent : Option Nat)
      (args : List Nat)
  | boundGenericStruct (decl : NominalTypeDecl) (parent : Option Nat)
      (args : List Nat)
  | boundGenericOneOf (decl : NominalTypeDecl) (parent : Option Nat)
      (args : List Nat)
  | substituted (original replacement : Nat)
  | protocolComposition (protocols : List Nat)
deriving DecidableEq, Repr

/-- An arena-allocated node: its payload plus the two flags every `TypeBase`
carries that matter here.  `canonical` models the non-null context
back-reference; `hasTypeVariable` models the type-variable bit. -/
structure NodeInfo where
  payload : NodePayload
  canonical : Bool
  hasTypeVariable : Bool
deriving DecidableEq, Repr

/-- The `ASTContext` together with its `Implementation`: the arena (`nodes`,
where the index of a node is its identity), the identifier table, and one
association list per uniquing table of `ASTContext::Implementation`. -/
structure ASTContext where
  nodes : List NodeInfo
  identifierTable : List String
  tupleTypes : List (List TupleTypeElt × Nat)
  parenTypes : List (Nat × Nat)
  functionTypes : List ((Nat × Nat × Bool) × Nat)
  arrayTypes : List ((Nat × Nat) × Nat)
  integerTypes : List (Nat × Nat)
  structTypes : List ((Nat × Option Nat) × Nat)
  boundGenericTypes : List ((NominalTypeDecl × Option Nat × List Nat) × Nat)
  substitutedTypes : List ((Nat × Nat) × Nat)
  protocolCompositionTypes : List (List Nat × Nat)
  boundGenericSubstitutions : List (Nat × List Nat)
deriving DecidableEq, Repr

/-- Association-list lookup: the `find` of a uniquing table. -/
def findTbl {κ β : Type} [DecidableEq κ] : List (κ × β) → κ → Option β
  | [], _ => none
  | (k, v) :: rest, k0 => if k = k0 then some v else findTbl rest k0

/-- The find-or-insert at the heart of every uniquing table
(`FindNodeOrInsertPos`/`InsertNode`, and the `DenseMap` `Entry` idiom): on a
hit return the existing index unchanged; on a miss the new node's identity is
the next arena index, the node is appended to the arena and the profile is
inserted into the table.  Returns (index, table, arena). -/
def getOrCreate {κ : Type} [DecidableEq κ] (tbl : List (κ × Nat))
    (nodes : List NodeInfo) (k : κ) (node : NodeInfo) :
    Nat × List (κ × Nat) × List NodeInfo :=
  match findTbl tbl k with
  | some v => (v, tbl, nodes)
  | none => (nodes.length, tbl ++ [(k, nodes.length)], nodes ++ [node])

/-- Well-formedness of one uniquing table against an arena of `len` nodes:
profiles are unique, node indices are unique, and every index is a real
arena index.  This is the invariant the C++ tables maintain by
construction. -/
def TableWF {κ : Type} (tbl : List (κ × Nat)) (len : Nat) : Prop :=
  (tbl.map Prod.fst).Nodup ∧ (tbl.map Prod.snd).Nodup ∧
    ∀ p ∈ tbl, p.2 < len

theorem findTbl_mem {κ β : Type} [DecidableEq κ] {tbl : List (κ × β)}
    {k : κ} {v : β} (h : findTbl tbl k = some v) : (k, v) ∈ tbl := by
  induction tbl with
  | nil => simp [findTbl] at h
  | cons p rest ih =>
    obtain ⟨k', v'⟩ := p
    by_cases hk : k' = k
    · subst hk
      simp [findTbl] at h
      simp [h]
    · simp [findTbl, hk] at h
      exact List.mem_cons_of_mem _ (ih h)

theorem findTbl_eq_none_of_not_mem {κ β : Type} [DecidableEq κ]
    {tbl : List (κ × β)} {k : κ} (h : k ∉ tbl.map Prod.fst) :
    findTbl tbl k = none := by
  induction tbl with
  | nil => rfl
  | cons p rest ih =>
    obtain ⟨k', v'⟩ := p
    simp only [List.map_cons, List.mem_cons] at h
    push_neg at h
    have hne : k' ≠ k := fun hh => h.1 hh.symm
    simp [findTbl, hne, ih h.2]

theorem not_mem_of_findTbl_eq_none {κ β : Type} [DecidableEq κ]
    {tbl : List (κ × β)} {k : κ} (h : findTbl tbl k = none) :
    k ∉ tbl.map Prod.fst := by
  induction tbl with
  | nil => simp
  | cons p rest ih =>
    obtain ⟨k', v'⟩ := p
    by_cases hk : k' = k
    · subst hk; simp [findTbl] at h
    · simp [findTbl, hk] at h
      simpa [Ne.symm hk] using ih h

theorem findTbl_append_self {κ β : Type} [DecidableEq κ]
    {tbl : List (κ × β)} {k : κ} (h : findTbl tbl k = none) (v : β) :
    findTbl (tbl ++ [(k, v)]) k = some v := by
  induction tbl with
  | nil => simp [findTbl]
  | cons p rest ih =>
    obtain ⟨k', v'⟩ := p
    by_cases hk : k' = k
    · subst hk; simp [findTbl] at h
    · simp [findTbl, hk] at h ⊢
      exact ih h

theorem findTbl_append_ne {κ β : Type} [DecidableEq κ]
    {tbl : List (κ × β)} {k k' : κ} (h : k' ≠ k) (v : β) :
    findTbl (tbl ++ [(k, v)]) k' = findTbl tbl k' := by
  induction tbl with
  | nil => simp [findTbl, Ne.symm h]
  | cons p rest ih =>
    obtain ⟨k0, v0⟩ := p
    by_cases hk : k0 = k'
    · simp [findTbl, hk]
    · simp [findTbl, hk, ih]

theorem findTbl_lt_of_wf {κ : Type} [DecidableEq κ] {tbl : List (κ × Nat)}
    {len : Nat} {k : κ} {v : Nat} (hwf : TableWF tbl len)
    (h : findTbl tbl k = some v) : v < len :=
  hwf.2.2 _ (findTbl_mem h)

theorem findTbl_inj_of_wf {κ : Type} [DecidableEq κ] {tbl : List (κ × Nat)}
    {len : Nat} {k1 k2 : κ} {v1 v2 : Nat} (hwf : TableWF tbl len)
    (hne : k1 ≠ k2) (h1 : findTbl tbl k1 = some v1)
    (h2 : findTbl tbl k2 = some v2) : v1 ≠ v2 := by
  intro hv
  subst hv
  have hm1 := findTbl_mem h1
  have hm2 := findTbl_mem h2
  have := List.inj_on_of_nodup_map hwf.2.1 hm1 hm2 rfl
  exact hne (congrArg Prod.fst this)

theorem getOrCreate_hit {κ : Type} [DecidableEq κ] {tbl : List (κ × Nat)}
    {k : κ} {v : Nat} (nodes : List NodeInfo) (node : NodeInfo)
    (h : findTbl tbl k = some v) : getOrCreate tbl nodes k node = (v, tbl, nodes) := by
  simp [getOrCreate, h]

theorem getOrCreate_miss {κ : Type} [DecidableEq κ] {tbl : List (κ × Nat)}
    {k : κ} (nodes : List NodeInfo) (node : NodeInfo)
    (h : findTbl tbl k = none) :
    getOrCreate tbl nodes k node =
      (nodes.length, tbl ++ [(k, nodes.length)], nodes ++ [node]) := by
  simp [getOrCreate, h]

/-- After a `getOrCreate` on profile `k`, the table maps `k` to the returned
index. -/
theorem getOrCreate_find_self {κ : Type} [DecidableEq κ]
    (tbl : List (κ × Nat)) (nodes : List NodeInfo) (k : κ) (node : NodeInfo) :
    findTbl (getOrCreate tbl nodes k node).2.1 k =
      some (getOrCreate tbl nodes k node).1 := by
  cases h : findTbl tbl k with
  | some v => simp [getOrCreate_hit nodes node h, h]
  | none => simp [getOrCreate_miss nodes node h, findTbl_append_self h]

theorem getOrCreate_fst_hit {κ : Type} [DecidableEq κ] {tbl : List (κ × Nat)}
    {k : κ} {v : Nat} (nodes : List NodeInfo) (node : NodeInfo)
    (h : findTbl tbl k = some v) : (getOrCreate tbl nodes k node).1 = v := by
  simp [getOrCreate, h]

/-- Two consecutive `getOrCreate`s with the same profile return the same
node index (whatever nodes the builders would construct). -/
theorem getOrCreate_twice_eq {κ : Type} [DecidableEq κ]
    (tbl : List (κ × Nat)) (nodes : List NodeInfo) (k : κ) (n1 n2 : NodeInfo) :
    (getOrCreate (getOrCreate tbl nodes k n1).2.1
      (getOrCreate tbl nodes k n1).2.2 k n2).1 = (getOrCreate tbl nodes k n1).1 :=
  getOrCreate_fst_hit _ _ (getOrCreate_find_self tbl nodes k n1)

/-- Two consecutive `getOrCreate`s with distinct profiles on a well-formed
table return distinct node indices. -/
theorem getOrCreate_twice_ne {κ : Type} [DecidableEq κ]
    {tbl : List (κ × Nat)} {nodes : List NodeInfo}
    (hwf : TableWF tbl nodes.length) {k1 k2 : κ} (hk : k1 ≠ k2)
    (n1 n2 : NodeInfo) :
    (getOrCreate (getOrCreate tbl nodes k1 n1).2.1
      (getOrCreate tbl nodes k1 n1).2.2 k2 n2).1 ≠ (getOrCreate tbl nodes k1 n1).1 := by
  cases h1 : findTbl tbl k1 with
  | some v1 =>
    rw [getOrCreate_hit nodes n1 h1]
    cases h2 : findTbl tbl k2 with
    | some v2 =>
      simp only [getOrCreate, h2]
      exact fun hh => findTbl_inj_of_wf hwf hk h1 h2 hh.symm
    | none =>
      simp only [getOrCreate, h2]
      have := findTbl_lt_of_wf hwf h1
      omega
  | none =>
    rw [getOrCreate_miss nodes n1 h1]
    cases h2 : findTbl (tbl ++ [(k1, nodes.length)]) k2 with
    | some v2 =>
      simp only [getOrCreate, h2]
      rw [findTbl_append_ne (Ne.symm hk)] at h2
      have := findTbl_lt_of_wf hwf h2
      omega
    | none =>
      simp only [getOrCreate, h2, List.length_append, List.length_cons,
        List.length_nil]
      omega

/-- `getOrCreate` preserves table well-formedness (against the grown arena). -/
theorem getOrCreate_wf {κ : Type} [DecidableEq κ] {tbl : List (κ × Nat)}
    {nodes : List NodeInfo} (hwf : TableWF tbl nodes.length) (k : κ)
    (node : NodeInfo) :
    TableWF (getOrCreate tbl nodes k node).2.1
      (getOrCreate tbl nodes k node).2.2.length := by
  cases h : findTbl tbl k with
  | some v => simpa [getOrCreate_hit nodes node h] using hwf
  | none =>
    rw [getOrCreate_miss nodes node h]
    refine ⟨?_, ?_, ?_⟩
    · simp only [List.map_append, List.map_cons, List.map_nil]
      rw [List.nodup_append]
      exact ⟨hwf.1, List.nodup_singleton _,
        by simpa [List.disjoint_singleton] using not_mem_of_findTbl_eq_none h⟩
    · simp only [List.map_append, List.map_cons, List.map_nil]
      rw [List.nodup_append]
      refine ⟨hwf.2.1, List.nodup_singleton _, ?_⟩
      intro v hv
      simp only [List.mem_singleton]
      intro hveq
      subst hveq
      obtain ⟨p, hp, hp2⟩ := List.mem_map.mp hv
      have := hwf.2.2 p hp
      omega
    · intro p hp
      simp only [List.length_append, List.length_cons, List.length_nil]
      rcases List.mem_append.mp hp with hmem | hmem
      · have := hwf.2.2 p hmem; omega
      · simp at hmem
        subst hmem
        simp

/-- `TypeBase::isCanonical()`: the context back-reference of the node is
non-null.  Out-of-range indices (no such allocation) answer `false`; they
never arise for types actually issued by the context. -/
def isCanonical (st : ASTContext) (t : Nat) : Bool :=
  (st.nodes[t]?.map NodeInfo.canonical).getD false

/-- `TypeBase::hasTypeVariable()`. -/
def hasTypeVariable (st : ASTContext) (t : Nat) : Bool :=
  (st.nodes[t]?.map NodeInfo.hasTypeVariable).getD false

/-- `BuiltinIntegerType::get` (ASTContext.cpp:136-141): uniqued by bit
width.  The `BuiltinIntegerType` constructor is outside `src/`; modelled
from the spec: a builtin type is a canonical leaf with no type variable
(the call passes the context `C` to the constructor unconditionally). -/
def BuiltinIntegerType.get (bitWidth : Nat) (st : ASTContext) :
    Nat × ASTContext :=
  let r := getOrCreate st.integerTypes st.nodes bitWidth
    ⟨.builtinInteger bitWidth, true, false⟩
  (r.1, { st with integerTypes := r.2.1, nodes := r.2.2 })

/-- `ParenType::get` (ASTContext.cpp:143-149): uniqued by the underlying
type.  The `ParenType` constructor is outside `src/`; its canonical bit is
modelled from the spec: a Parenthesized node is canonical iff its wrapped
type is canonical. -/
def ParenType.get (st : ASTContext) (underlying : Nat) : Nat × ASTContext :=
  let hasTypeVariable := hasTypeVariable st underlying
  let r := getOrCreate st.parenTypes st.nodes underlying
    ⟨.paren underlying, isCanonical st underlying, hasTypeVariable⟩
  (r.1, { st with parenTypes := r.2.1, nodes := r.2.2 })

/-- The single-element collapse test of `TupleType::get` (ASTContext.cpp:166):
`Fields.size() == 1 && !Fields[0].isVararg() && !Fields[0].hasName()`. -/
def tupleCollapses : List TupleTypeElt → Bool
  | [f] => !f.isVararg && !f.hasName
  | _ => false

/-- The proper-tuple path of `TupleType::get` (ASTContext.cpp:169-214),
reached when the field list does not collapse to a `ParenType`.  The
source's single early-exit loop computing `HasAnyDefaultValues` and
`HasTypeVariable` (lines 172-183) saturates monotonically, so its result
is exactly the two `List.any`s below; the `IsCanonical` loop (lines
199-205) is `List.all`.  The null-element-type tests of lines 178 and 201
are dropped: element types are modelled as non-null (see `TupleTypeElt`).
When some field has a default value, the node is allocated but *not*
inserted into `tupleTypes`. -/
def TupleType.getTuplePath (fields : List TupleTypeElt) (st : ASTContext) :
    Nat × ASTContext :=
  let HasAnyDefaultValues := fields.any TupleTypeElt.hasInit
  let HasTypeVariable := fields.any fun e => hasTypeVariable st e.ty
  let IsCanonical := fields.all fun e => isCanonical st e.ty
  let node : NodeInfo := ⟨.tuple fields, IsCanonical, HasTypeVariable⟩
  if HasAnyDefaultValues then
    (st.nodes.length, { st with nodes := st.nodes ++ [node] })
  else
    let r := getOrCreate st.tupleTypes st.nodes fields node
    (r.1, { st with tupleTypes := r.2.1, nodes := r.2.2 })

/-- `TupleType::get` (ASTContext.cpp:165-215): a single unnamed non-vararg
field collapses to `ParenType::get` (lines 166-167) before anything else
is examined; otherwise the proper-tuple path runs. -/
def TupleType.get (fields : List TupleTypeElt) (st : ASTContext) :
    Nat × ASTContext :=
  match fields with
  | [f] =>
    if !f.isVararg && !f.hasName then ParenType.get st f.ty
    else TupleType.getTuplePath [f] st
  | _ => TupleType.getTuplePath fields st

/-- `FunctionType::get` (ASTContext.cpp:462-473), uniqued on
`(input, result, autoClosure)`; the `FunctionType` constructor
(ASTContext.cpp:476-484) receives the context iff both input and result
are canonical, and the type-variable bit is the disjunction computed at
line 470. -/
def FunctionType.get (input result : Nat) (isAutoClosure : Bool)
    (st : ASTContext) : Nat × ASTContext :=
  let hasTypeVariable := hasTypeVariable st input || hasTypeVariable st result
  let node : NodeInfo := ⟨.function input result isAutoClosure,
    isCanonical st input && isCanonical st result, hasTypeVariable⟩
  let r := getOrCreate st.functionTypes st.nodes
    (input, result, isAutoClosure) node
  (r.1, { st with functionTypes := r.2.1, nodes := r.2.2 })

/-- `PolymorphicFunctionType::get` (ASTContext.cpp:489-494): no uniquing
table is consulted, every call allocates; the constructor
(ASTContext.cpp:496-507) asserts that neither input nor output carries a
type variable, receives the context iff both are canonical, and stores
`HasTypeVariable = false`. -/
def PolymorphicFunctionType.get (input output params : Nat)
    (st : ASTContext) : Except String (Nat × ASTContext) :=
  if hasTypeVariable st input || hasTypeVariable st output then
    .error "PolymorphicFunctionType input or output carries a type variable"
  else
    let node : NodeInfo := ⟨.polymorphicFunction input output params,
      isCanonical st input && isCanonical st output, false⟩
    .ok (st.nodes.length, { st with nodes := st.nodes ++ [node] })

/-- `ArrayType::get` (ASTContext.cpp:511-519): asserts `Size != 0`, then
uniques on the `(base type, size)` pair; the `ArrayType` constructor
(ASTContext.cpp:521-525) receives the context iff the base is canonical. -/
def ArrayType.get (baseType : Nat) (size : Nat) (st : ASTContext) :
    Except String (Nat × ASTContext) :=
  if size = 0 then .error "Size != 0"
  else
    let hasTypeVariable := hasTypeVariable st baseType
    let node : NodeInfo := ⟨.array baseType size,
      isCanonical st baseType, hasTypeVariable⟩
    let r := getOrCreate st.arrayTypes st.nodes (baseType, size) node
    .ok (r.1, { st with arrayTypes := r.2.1, nodes := r.2.2 })

/-- `StructType::get` (ASTContext.cpp:364-376), uniqued on
`(declaration, parent)`; the type-variable bit is
`Parent && Parent->hasTypeVariable()` (line 372).  The `NominalType`
constructor the `StructType` constructor delegates to is outside `src/`;
its canonical bit is modelled from the spec: canonical iff the parent (if
any) is canonical. -/
def StructType.get (d : Nat) (parent : Option Nat) (st : ASTContext) :
    Nat × ASTContext :=
  let hasTypeVariable := match parent with
    | some p => hasTypeVariable st p
    | none => false
  let node : NodeInfo := ⟨.structType d parent,
    (match parent with | some p => isCanonical st p | none => true),
    hasTypeVariable⟩
  let r := getOrCreate st.structTypes st.nodes (d, parent) node
  (r.1, { st with structTypes := r.2.1, nodes := r.2.2 })

/-- `BoundGenericType::get` (ASTContext.cpp:270-319), uniqued on
`(declaration, parent, generic arguments)` in the single shared
`BoundGenericTypes` table; construction dispatches on the declaration's
kind to the class/struct/oneof subtype.  The early-exit flag loop of lines
282-299 saturates monotonically (`IsCanonical` only ever falls to `false`,
`HasTypeVariable` only ever rises to `true`, and the loop is skipped
exactly when both are already saturated), so it computes exactly the
`List.all`/`List.any` below. -/
def BoundGenericType.get (theDecl : NominalTypeDecl) (parent : Option Nat)
    (genericArgs : List Nat) (st : ASTContext) : Nat × ASTContext :=
  let IsCanonical :=
    (match parent with | some p => isCanonical st p | none => true) &&
      genericArgs.all (isCanonical st)
  let HasTypeVariable :=
    (match parent with | some p => hasTypeVariable st p | none => false) ||
      genericArgs.any (hasTypeVariable st)
  let payload := match theDecl.kind with
    | .classKind => NodePayload.boundGenericClass theDecl parent genericArgs
    | .structKind => NodePayload.boundGenericStruct theDecl parent genericArgs
    | .oneOfKind => NodePayload.boundGenericOneOf theDecl parent genericArgs
  let r := getOrCreate st.boundGenericTypes st.nodes
    (theDecl, parent, genericArgs) ⟨payload, IsCanonical, HasTypeVariable⟩
  (r.1, { st with boundGenericTypes := r.2.1, nodes := r.2.2 })

/-- `SubstitutedType::get` (ASTContext.cpp:555-563), uniqued on
`(original, replacement)`.  The type-variable bit passed to the
constructor is `Replacement->hasTypeVariable()` (line 559) — the original
type is not consulted.  The `SubstitutedType` constructor is outside
`src/`; its canonical bit is modelled from the spec: canonical iff both
children are canonical (it is irrelevant to the claims below). -/
def SubstitutedType.get (original replacement : Nat) (st : ASTContext) :
    Nat × ASTContext :=
  let hasTypeVariable := hasTypeVariable st replacement
  let node : NodeInfo := ⟨.substituted original replacement,
    isCanonical st original && isCanonical st replacement, hasTypeVariable⟩
  let r := getOrCreate st.substitutedTypes st.nodes (original, replacement)
    node
  (r.1, { st with substitutedTypes := r.2.1, nodes := r.2.2 })

/-- `ProtocolCompositionType::build` (ASTContext.cpp:412-434), uniqued on
the ordered protocol list; the node is canonical iff every member protocol
type is canonical (lines 422-426), and the constructor stores no
type-variable bit (modelled as `false`; the constructor is outside
`src/`). -/
def ProtocolCompositionType.build (st : ASTContext) (protocols : List Nat) :
    Nat × ASTContext :=
  let isCanonicalBit := protocols.all (isCanonical st)
  let r := getOrCreate st.protocolCompositionTypes st.nodes protocols
    ⟨.protocolComposition protocols, isCanonicalBit, false⟩
  (r.1, { st with protocolCompositionTypes := r.2.1, nodes := r.2.2 })

/-- Position of a string in the interner's storage: the identifier handle
of an interned string is its (first) index.  Distinct handles model
distinct `char *` key-data pointers of the `StringMap`. -/
def lookupIdentifier : List String → String → Option Nat
  | [], _ => none
  | s :: rest, str =>
    if s = str then some 0 else (lookupIdentifier rest str).map (· + 1)

/-- `ASTContext::getIdentifier` (ASTContext.cpp:96-101): the empty string
returns the null identifier `Identifier(0)` (modelled `none`) without
touching the table; otherwise `GetOrCreateValue` interns the content and
the handle is the pointer to the table-owned key data (modelled as the
index of the string in the table). -/
def ASTContext.getIdentifier (st : ASTContext) (str : String) :
    Option Nat × ASTContext :=
  if str = "" then (none, st)
  else
    match lookupIdentifier st.identifierTable str with
    | some i => (some i, st)
    | none => (some st.identifierTable.length,
        { st with identifierTable := st.identifierTable ++ [str] })

/-- `ASTContext::getSubstitutions` (ASTContext.cpp:107-115): asserts the
key is canonical, then looks the key up, answering `none` ("Nothing") when
it was never set. -/
def ASTContext.getSubstitutions (st : ASTContext) (bound : Nat) :
    Except String (Option (List Nat)) :=
  if isCanonical st bound then
    .ok (findTbl st.boundGenericSubstitutions bound)
  else .error "Requesting non-canonical substitutions"

/-- `ASTContext::setSubstitutions` (ASTContext.cpp:117-123): asserts the
key is canonical and not already present, then records the substitution
list for the key. -/
def ASTContext.setSubstitutions (st : ASTContext) (bound : Nat)
    (subs : List Nat) : Except String ASTContext :=
  if isCanonical st bound then
    if findTbl st.boundGenericSubstitutions bound = none then
      .ok { st with boundGenericSubstitutions :=
              st.boundGenericSubstitutions ++ [(bound, subs)] }
    else .error "Already have substitutions?"
  else .error "Requesting non-canonical substitutions"

/-- Well-formedness of a context: every uniquing table is well-formed
against the arena. -/
def ASTContext.WF (st : ASTContext) : Prop :=
  TableWF st.tupleTypes st.nodes.length ∧
  TableWF st.parenTypes st.nodes.length ∧
  TableWF st.functionTypes st.nodes.length ∧
  TableWF st.arrayTypes st.nodes.length ∧
  TableWF st.integerTypes st.nodes.length ∧
  TableWF st.structTypes st.nodes.length ∧
  TableWF st.boundGenericTypes st.nodes.length ∧
  TableWF st.substitutedTypes st.nodes.length ∧
  TableWF st.protocolCompositionTypes st.nodes.length

/-- A context with an empty arena and empty tables. -/
def emptyContext : ASTContext := ⟨[], [], [], [], [], [], [], [], [], [], [], []⟩

theorem tableWF_nil {κ : Type} (len : Nat) :
    TableWF ([] : List (κ × Nat)) len :=
  ⟨List.nodup_nil, List.nodup_nil, by simp⟩

theorem emptyContext_wf : emptyContext.WF := by
  refine ⟨?_, ?_, ?_, ?_, ?_, ?_, ?_, ?_, ?_⟩ <;> exact tableWF_nil _

/-- A field list that does not collapse runs the proper-tuple path. -/
theorem TupleType.get_eq_tuplePath {fields : List TupleTypeElt}
    (h : tupleCollapses fields = false) :
    ∀ st : ASTContext, TupleType.get fields st = TupleType.getTuplePath fields st := by
  intro st
  match fields with
  | [] => rfl
  | [f] =>
    simp only [tupleCollapses] at h
    simp [TupleType.get, h]
  | f1 :: f2 :: rest => rfl

/-- C3: for every type `T` and every state, requesting the tuple whose field
list is the single unnamed, non-vararg element of type `T` yields literally
the call `ParenType::get(C, T)`, and a subsequent request for the
Parenthesized type of `T` returns that same node identity. -/
theorem tuple_single_collapse (st : ASTContext) (f : TupleTypeElt)
    (hv : f.isVararg = false) (hn : f.hasName = false) :
    TupleType.get [f] st = ParenType.get st f.ty ∧
    (ParenType.get (TupleType.get [f] st).2 f.ty).1 = (TupleType.get [f] st).1 := by
  have h1 : TupleType.get [f] st = ParenType.get st f.ty := by
    simp [TupleType.get, hv, hn]
  refine ⟨h1, ?_⟩
  rw [h1]
  simp only [ParenType.get]
  exact getOrCreate_twice_eq _ _ _ _ _

/-- C3 witness at a concrete input. -/
theorem tuple_single_collapse_witness :
    TupleType.get [⟨0, none, none, none⟩] emptyContext =
      ParenType.get emptyContext 0 ∧
    (ParenType.get (TupleType.get [⟨0, none, none, none⟩] emptyContext).2 0).1 =
      (TupleType.get [⟨0, none, none, none⟩] emptyContext).1 :=
  tuple_single_collapse emptyContext ⟨0, none, none, none⟩ (by decide) (by decide)

/-- C10: the single-element collapse of `TupleType::get` is tested before
the default-value check, so a field list of exactly one unnamed non-vararg
element collapses to the uniqued `ParenType` even when the element carries a
default-value expression, and two such calls return the identical node. -/
theorem tuple_single_default_collapse (st : ASTContext) (f : TupleTypeElt)
    (hv : f.isVararg = false) (hn : f.hasName = false)
    (hd : f.hasInit = true) :
    TupleType.get [f] st = ParenType.get st f.ty ∧
    (TupleType.get [f] (TupleType.get [f] st).2).1 = (TupleType.get [f] st).1 := by
  have h1 : ∀ st' : ASTContext, TupleType.get [f] st' = ParenType.get st' f.ty := by
    intro st'
    simp [TupleType.get, hv, hn]
  refine ⟨h1 st, ?_⟩
  rw [h1, h1]
  simp only [ParenType.get]
  exact getOrCreate_twice_eq _ _ _ _ _

/-- C10 witness: a defaulted single unnamed element at a concrete input. -/
theorem tuple_single_default_collapse_witness :
    TupleType.get [⟨0, none, some 0, none⟩] emptyContext =
      ParenType.get emptyContext 0 ∧
    (TupleType.get [⟨0, none, some 0, none⟩]
        (TupleType.get [⟨0, none, some 0, none⟩] emptyContext).2).1 =
      (TupleType.get [⟨0, none, some 0, none⟩] emptyContext).1 :=
  tuple_single_default_collapse emptyContext ⟨0, none, some 0, none⟩
    (by decide) (by decide) (by decide)

/-- A context holding one externally-created canonical type (index 0). -/
def ctxOneExternal : ASTContext :=
  { emptyContext with nodes := [⟨.external 0, true, false⟩] }

/-- C4 counterexample: the field list `[(type 0, unnamed, non-vararg,
default-valued)]` carries a default-value expression, yet two calls to
`TupleType::get` with it return the *same* node identity: the
single-element collapse (tested before the default-value check) routes both
calls to the uniqued `ParenType` table. -/
theorem tuple_default_distinct_counterexample :
    TupleTypeElt.hasInit ⟨0, none, some 0, none⟩ = true ∧
    (TupleType.get [⟨0, none, some 0, none⟩]
        (TupleType.get [⟨0, none, some 0, none⟩] ctxOneExternal).2).1 =
      (TupleType.get [⟨0, none, some 0, none⟩] ctxOneExternal).1 := by
  decide

/-- C4 (amended): for every field list with a default-valued field that does
not collapse to a Parenthesized type (i.e. other than exactly one unnamed
non-vararg element), the resulting tuple node is fresh, the uniquing table
is left untouched, and a second identical call returns a distinct node. -/
theorem tuple_default_not_uniqued (st : ASTContext)
    (fields : List TupleTypeElt) (hcol : tupleCollapses fields = false)
    (hdef : fields.any TupleTypeElt.hasInit = true) :
    (TupleType.get fields st).1 = st.nodes.length ∧
    (TupleType.get fields st).2.tupleTypes = st.tupleTypes ∧
    (TupleType.get fields (TupleType.get fields st).2).1 ≠
      (TupleType.get fields st).1 := by
  simp only [TupleType.get_eq_tuplePath hcol]
  simp [TupleType.getTuplePath, hdef]

/-- C4 witness: a two-element field list with a defaulted element. -/
theorem tuple_default_not_uniqued_witness :
    (TupleType.get [⟨0, none, some 0, none⟩, ⟨0, none, none, none⟩]
        ctxOneExternal).1 = ctxOneExternal.nodes.length ∧
    (TupleType.get [⟨0, none, some 0, none⟩, ⟨0, none, none, none⟩]
        ctxOneExternal).2.tupleTypes = ctxOneExternal.tupleTypes ∧
    (TupleType.get [⟨0, none, some 0, none⟩, ⟨0, none, none, none⟩]
        (TupleType.get [⟨0, none, some 0, none⟩, ⟨0, none, none, none⟩]
          ctxOneExternal).2).1 ≠
      (TupleType.get [⟨0, none, some 0, none⟩, ⟨0, none, none, none⟩]
        ctxOneExternal).1 :=
  tuple_default_not_uniqued ctxOneExternal _ (by decide) (by decide)

/-- C1: on one context, every uniqued type factory returns the identical
node for two consecutive calls with structurally equal arguments, and
distinct nodes for structurally unequal arguments, shown here for
`BuiltinIntegerType::get`, `FunctionType::get`, `ArrayType::get`,
`StructType::get` and `BoundGenericType::get`. -/
theorem uniqued_factory_identity (st : ASTContext) (hwf : st.WF) :
    (∀ w : Nat,
      (BuiltinIntegerType.get w (BuiltinIntegerType.get w st).2).1 =
        (BuiltinIntegerType.get w st).1) ∧
    (∀ w1 w2 : Nat, w1 ≠ w2 →
      (BuiltinIntegerType.get w2 (BuiltinIntegerType.get w1 st).2).1 ≠
        (BuiltinIntegerType.get w1 st).1) ∧
    (∀ i r : Nat, ∀ ac : Bool,
      (FunctionType.get i r ac (FunctionType.get i r ac st).2).1 =
        (FunctionType.get i r ac st).1) ∧
    (∀ i1 r1 i2 r2 : Nat, ∀ ac1 ac2 : Bool,
      (i1, r1, ac1) ≠ (i2, r2, ac2) →
      (FunctionType.get i2 r2 ac2 (FunctionType.get i1 r1 ac1 st).2).1 ≠
        (FunctionType.get i1 r1 ac1 st).1) ∧
    (∀ b s id1 id2 : Nat, ∀ st1 st2 : ASTContext,
      ArrayType.get b s st = .ok (id1, st1) →
      ArrayType.get b s st1 = .ok (id2, st2) → id2 = id1) ∧
    (∀ b1 s1 b2 s2 id1 id2 : Nat, ∀ st1 st2 : ASTContext,
      (b1, s1) ≠ (b2, s2) →
      ArrayType.get b1 s1 st = .ok (id1, st1) →
      ArrayType.get b2 s2 st1 = .ok (id2, st2) → id2 ≠ id1) ∧
    (∀ d : Nat, ∀ p : Option Nat,
      (StructType.get d p (StructType.get d p st).2).1 =
        (StructType.get d p st).1) ∧
    (∀ d1 d2 : Nat, ∀ p1 p2 : Option Nat, (d1, p1) ≠ (d2, p2) →
      (StructType.get d2 p2 (StructType.get d1 p1 st).2).1 ≠
        (StructType.get d1 p1 st).1) ∧
    (∀ dcl : NominalTypeDecl, ∀ p : Option Nat, ∀ args : List Nat,
      (BoundGenericType.get dcl p args (BoundGenericType.get dcl p args st).2).1 =
        (BoundGenericType.get dcl p args st).1) ∧
    (∀ dcl1 dcl2 : NominalTypeDecl, ∀ p1 p2 : Option Nat,
      ∀ args1 args2 : List Nat, (dcl1, p1, args1) ≠ (dcl2, p2, args2) →
      (BoundGenericType.get dcl2 p2 args2
          (BoundGenericType.get dcl1 p1 args1 st).2).1 ≠
        (BoundGenericType.get dcl1 p1 args1 st).1) := by
  obtain ⟨hwtup, hwpar, hwfun, hwarr, hwint, hwstr, hwbg, hwsub, hwpc⟩ := hwf
  refine ⟨?_, ?_, ?_, ?_, ?_, ?_, ?_, ?_, ?_, ?_⟩
  · intro w
    simp only [BuiltinIntegerType.get]
    exact getOrCreate_twice_eq _ _ _ _ _
  · intro w1 w2 hw
    simp only [BuiltinIntegerType.get]
    exact getOrCreate_twice_ne hwint hw _ _
  · intro i r ac
    simp only [FunctionType.get]
    exact getOrCreate_twice_eq _ _ _ _ _
  · intro i1 r1 i2 r2 ac1 ac2 hk
    simp only [FunctionType.get]
    exact getOrCreate_twice_ne hwfun hk _ _
  · intro b s id1 id2 st1 st2 h1 h2
    by_cases hs : s = 0
    · rw [hs] at h1
      simp [ArrayType.get] at h1
    · simp only [ArrayType.get, if_neg hs, Except.ok.injEq, Prod.mk.injEq] at h1 h2
      obtain ⟨hid1, hst1⟩ := h1
      obtain ⟨hid2, _⟩ := h2
      rw [← hst1] at hid2
      rw [← hid1, ← hid2]
      exact getOrCreate_twice_eq _ _ _ _ _
  · intro b1 s1 b2 s2 id1 id2 st1 st2 hk h1 h2
    by_cases hs1 : s1 = 0
    · rw [hs1] at h1
      simp [ArrayType.get] at h1
    · by_cases hs2 : s2 = 0
      · rw [hs2] at h2
        simp [ArrayType.get] at h2
      · simp only [ArrayType.get, if_neg hs1, if_neg hs2, Except.ok.injEq,
          Prod.mk.injEq] at h1 h2
        obtain ⟨hid1, hst1⟩ := h1
        obtain ⟨hid2, _⟩ := h2
        rw [← hst1] at hid2
        rw [← hid1, ← hid2]
        exact getOrCreate_twice_ne hwarr hk _ _
  · intro d p
    simp only [StructType.get]
    exact getOrCreate_twice_eq _ _ _ _ _
  · intro d1 d2 p1 p2 hk
    simp only [StructType.get]
    exact getOrCreate_twice_ne hwstr hk _ _
  · intro dcl p args
    simp only [BoundGenericType.get]
    exact getOrCreate_twice_eq _ _ _ _ _
  · intro dcl1 dcl2 p1 p2 args1 args2 hk
    simp only [BoundGenericType.get]
    exact getOrCreate_twice_ne hwbg hk _ _

/-- C1 witness: concrete instances of the equal- and unequal-argument cases
on the empty context. -/
theorem uniqued_factory_identity_witness :
    ((BuiltinIntegerType.get 8 (BuiltinIntegerType.get 8 emptyContext).2).1 =
      (BuiltinIntegerType.get 8 emptyContext).1) ∧
    ((BuiltinIntegerType.get 16 (BuiltinIntegerType.get 8 emptyContext).2).1 ≠
      (BuiltinIntegerType.get 8 emptyContext).1) ∧
    ((FunctionType.get 0 1 false
        (FunctionType.get 0 1 false emptyContext).2).1 =
      (FunctionType.get 0 1 false emptyContext).1) :=
  ⟨(uniqued_factory_identity emptyContext emptyContext_wf).1 8,
   (uniqued_factory_identity emptyContext emptyContext_wf).2.1 8 16
      (by decide),
   (uniqued_factory_identity emptyContext emptyContext_wf).2.2.1 0 1 false⟩

/-- C2: a node freshly constructed by a factory is marked canonical (its
context back-reference is non-null) iff every structural child is
canonical: a function type iff input and result are canonical, a proper
tuple iff all element types are canonical, a protocol composition iff every
member protocol type is canonical, and a bound generic type iff its parent
(if any) and all generic arguments are canonical. -/
theorem canonicality_propagation (st : ASTContext) :
    (∀ i r : Nat, ∀ ac : Bool,
      findTbl st.functionTypes (i, r, ac) = none →
      isCanonical (FunctionType.get i r ac st).2
          (FunctionType.get i r ac st).1 =
        (isCanonical st i && isCanonical st r)) ∧
    (∀ fields : List TupleTypeElt, tupleCollapses fields = false →
      (fields.any TupleTypeElt.hasInit = true ∨
        findTbl st.tupleTypes fields = none) →
      isCanonical (TupleType.get fields st).2 (TupleType.get fields st).1 =
        fields.all (fun e => isCanonical st e.ty)) ∧
    (∀ ps : List Nat, findTbl st.protocolCompositionTypes ps = none →
      isCanonical (ProtocolCompositionType.build st ps).2
          (ProtocolCompositionType.build st ps).1 =
        ps.all (isCanonical st)) ∧
    (∀ dcl : NominalTypeDecl, ∀ p : Option Nat, ∀ args : List Nat,
      findTbl st.boundGenericTypes (dcl, p, args) = none →
      isCanonical (BoundGenericType.get dcl p args st).2
          (BoundGenericType.get dcl p args st).1 =
        ((match p with | some q => isCanonical st q | none => true) &&
          args.all (isCanonical st))) := by
  refine ⟨?_, ?_, ?_, ?_⟩
  · intro i r ac hmiss
    simp only [FunctionType.get, getOrCreate_miss _ _ hmiss]
    simp [isCanonical, List.getElem?_concat_length]
  · intro fields hcol halloc
    simp only [TupleType.get_eq_tuplePath hcol]
    rcases halloc with hdef | hmiss
    · simp only [TupleType.getTuplePath, hdef, if_pos]
      simp [isCanonical, List.getElem?_concat_length]
    · simp only [TupleType.getTuplePath]
      by_cases hdef : fields.any TupleTypeElt.hasInit
      · simp only [hdef, if_pos]
        simp [isCanonical, List.getElem?_concat_length]
      · simp only [hdef, Bool.false_eq_true, if_neg, Bool.not_eq_true,
          getOrCreate_miss _ _ hmiss]
        simp [isCanonical, List.getElem?_concat_length]
  · intro ps hmiss
    simp only [ProtocolCompositionType.build, getOrCreate_miss _ _ hmiss]
    simp [isCanonical, List.getElem?_concat_length]
  · intro dcl p args hmiss
    simp only [BoundGenericType.get, getOrCreate_miss _ _ hmiss]
    simp [isCanonical, List.getElem?_concat_length]

/-- A context holding two externally-created types: index 0 canonical
without a type variable, index 1 non-canonical with a type variable. -/
def ctxTwoExternal : ASTContext :=
  { emptyContext with
    nodes := [⟨.external 0, true, false⟩, ⟨.external 1, false, true⟩] }

/-- C2 witness: on a context whose node 0 is canonical and node 1 is not,
a fresh function type over (0,0) is canonical and one over (0,1) is not;
a fresh two-element tuple over [0,1] is not canonical; a fresh protocol
composition over [0] is canonical. -/
theorem canonicality_propagation_witness :
    isCanonical (FunctionType.get 0 0 false ctxTwoExternal).2
        (FunctionType.get 0 0 false ctxTwoExternal).1 = true ∧
    isCanonical (FunctionType.get 0 1 false ctxTwoExternal).2
        (FunctionType.get 0 1 false ctxTwoExternal).1 = false ∧
    isCanonical
        (TupleType.get [⟨0, none, none, none⟩, ⟨1, none, none, none⟩]
          ctxTwoExternal).2
        (TupleType.get [⟨0, none, none, none⟩, ⟨1, none, none, none⟩]
          ctxTwoExternal).1 = false ∧
    isCanonical (ProtocolCompositionType.build ctxTwoExternal [0]).2
        (ProtocolCompositionType.build ctxTwoExternal [0]).1 = true := by
  refine ⟨?_, ?_, ?_, ?_⟩
  · rw [(canonicality_propagation ctxTwoExternal).1 0 0 false (by decide)]
    decide
  · rw [(canonicality_propagation ctxTwoExternal).1 0 1 false (by decide)]
    decide
  · rw [(canonicality_propagation ctxTwoExternal).2.1
      [⟨0, none, none, none⟩, ⟨1, none, none, none⟩] (by decide)
      (Or.inr (by decide))]
    decide
  · rw [(canonicality_propagation ctxTwoExternal).2.2.1 [0] (by decide)]
    decide

/-- Recording substitutions does not touch the arena, so canonicality
queries are unchanged. -/
theorem isCanonical_set_substitutions (st : ASTContext)
    (x : List (Nat × List Nat)) (t : Nat) :
    isCanonical { st with boundGenericSubstitutions := x } t =
      isCanonical st t := rfl

/-- C5: for a canonical key, `getSubstitutions` answers absent before any
`setSubstitutions`, answers exactly the recorded list after one, and a
second `setSubstitutions` for the same key is a contract violation; for a
non-canonical key both operations are contract violations. -/
theorem substitution_store_contract (st : ASTContext) (b : Nat)
    (subs : List Nat) :
    (isCanonical st b = true →
      (findTbl st.boundGenericSubstitutions b = none →
        st.getSubstitutions b = .ok none) ∧
      (∀ st' : ASTContext, st.setSubstitutions b subs = .ok st' →
        st'.getSubstitutions b = .ok (some subs) ∧
        ∀ subs2 : List Nat, ∀ st'' : ASTContext,
          st'.setSubstitutions b subs2 ≠ .ok st'')) ∧
    (isCanonical st b = false →
      (∀ v : Option (List Nat), st.getSubstitutions b ≠ .ok v) ∧
      (∀ st' : ASTContext, st.setSubstitutions b subs ≠ .ok st')) := by
  constructor
  · intro hc
    constructor
    · intro hmiss
      simp [ASTContext.getSubstitutions, hc, hmiss]
    · intro st' hset
      by_cases hfind : findTbl st.boundGenericSubstitutions b = none
      · simp only [ASTContext.setSubstitutions, hc, if_true, hfind,
          Except.ok.injEq] at hset
        subst hset
        refine ⟨?_, ?_⟩
        · simp [ASTContext.getSubstitutions, isCanonical_set_substitutions,
            hc, findTbl_append_self hfind]
        · intro subs2 st''
          simp [ASTContext.setSubstitutions, isCanonical_set_substitutions,
            hc, findTbl_append_self hfind]
      · simp [ASTContext.setSubstitutions, hc, hfind] at hset
  · intro hc
    constructor
    · intro v
      simp [ASTContext.getSubstitutions, hc]
    · intro st'
      simp [ASTContext.setSubstitutions, hc]

/-- C5 witness: node 0 of `ctxTwoExternal` is canonical, node 1 is not;
get-before-set, get-after-set, double-set and the non-canonical rejection
at those concrete keys. -/
theorem substitution_store_contract_witness :
    ctxTwoExternal.getSubstitutions 0 = .ok none ∧
    ({ ctxTwoExternal with boundGenericSubstitutions :=
        [(0, [5])] }).getSubstitutions 0 = .ok (some [5]) ∧
    (∀ st'' : ASTContext,
      ({ ctxTwoExternal with boundGenericSubstitutions :=
          [(0, [5])] }).setSubstitutions 0 [7] ≠ .ok st'') ∧
    (∀ v : Option (List Nat), ctxTwoExternal.getSubstitutions 1 ≠ .ok v) := by
  have hset : ctxTwoExternal.setSubstitutions 0 [5] =
      .ok { ctxTwoExternal with boundGenericSubstitutions := [(0, [5])] } := rfl
  have h1 := (substitution_store_contract ctxTwoExternal 0 [5]).1 (by decide)
  have h2 := (substitution_store_contract ctxTwoExternal 1 [5]).2 (by decide)
  exact ⟨h1.1 rfl, (h1.2 _ hset).1,
    fun st'' => (h1.2 _ hset).2 [7] st'', h2.1⟩

/-- C6 counterexample: in `ctxTwoExternal`, type 1 has a type variable and
type 0 does not; the `SubstitutedType` built from original 1 and
replacement 0 has its type-variable flag `false` although its original
(a structural child) has a type variable — the factory consults only the
replacement type. -/
theorem substituted_type_variable_counterexample :
    hasTypeVariable ctxTwoExternal 1 = true ∧
    hasTypeVariable ctxTwoExternal 0 = false ∧
    hasTypeVariable (SubstitutedType.get 1 0 ctxTwoExternal).2
      (SubstitutedType.get 1 0 ctxTwoExternal).1 = false := by
  decide

/-- C6 (amended): a freshly built `FunctionType` has the type-variable flag
iff its input or its result has a type variable, while a freshly built
`SubstitutedType` has the flag iff its *replacement* type has a type
variable — the original type is not consulted (ASTContext.cpp:559). -/
theorem type_variable_propagation (st : ASTContext) :
    (∀ i r : Nat, ∀ ac : Bool,
      findTbl st.functionTypes (i, r, ac) = none →
      hasTypeVariable (FunctionType.get i r ac st).2
          (FunctionType.get i r ac st).1 =
        (hasTypeVariable st i || hasTypeVariable st r)) ∧
    (∀ o rep : Nat, findTbl st.substitutedTypes (o, rep) = none →
      hasTypeVariable (SubstitutedType.get o rep st).2
          (SubstitutedType.get o rep st).1 = hasTypeVariable st rep) := by
  constructor
  · intro i r ac hmiss
    simp only [FunctionType.get, getOrCreate_miss _ _ hmiss]
    simp [hasTypeVariable, List.getElem?_concat_length]
  · intro o rep hmiss
    simp only [SubstitutedType.get, getOrCreate_miss _ _ hmiss]
    simp [hasTypeVariable, List.getElem?_concat_length]

/-- C6 (amended) witness at concrete inputs in `ctxTwoExternal`. -/
theorem type_variable_propagation_witness :
    hasTypeVariable (FunctionType.get 0 1 false ctxTwoExternal).2
        (FunctionType.get 0 1 false ctxTwoExternal).1 = true ∧
    hasTypeVariable (SubstitutedType.get 1 0 ctxTwoExternal).2
        (SubstitutedType.get 1 0 ctxTwoExternal).1 = false := by
  constructor
  · rw [(type_variable_propagation ctxTwoExternal).1 0 1 false (by decide)]
    decide
  · rw [(type_variable_propagation ctxTwoExternal).2 1 0 (by decide)]
    decide

theorem lookupIdentifier_getElem {tbl : List String} {s : String} {i : Nat}
    (h : lookupIdentifier tbl s = some i) : tbl[i]? = some s := by
  induction tbl generalizing i with
  | nil => simp [lookupIdentifier] at h
  | cons s0 rest ih =>
    by_cases hs : s0 = s
    · subst hs
      simp [lookupIdentifier] at h
      subst h
      simp
    · simp only [lookupIdentifier, if_neg hs] at h
      obtain ⟨j, hj, hij⟩ := Option.map_eq_some'.mp h
      subst hij
      simpa using ih hj

theorem lookupIdentifier_lt {tbl : List String} {s : String} {i : Nat}
    (h : lookupIdentifier tbl s = some i) : i < tbl.length := by
  have hg := lookupIdentifier_getElem h
  by_contra hnot
  push_neg at hnot
  rw [List.getElem?_eq_none hnot] at hg
  cases hg

theorem lookupIdentifier_append_self {tbl : List String} {s : String}
    (h : lookupIdentifier tbl s = none) :
    lookupIdentifier (tbl ++ [s]) s = some tbl.length := by
  induction tbl with
  | nil => simp [lookupIdentifier]
  | cons s0 rest ih =>
    by_cases hs : s0 = s
    · subst hs
      simp [lookupIdentifier] at h
    · simp only [lookupIdentifier, if_neg hs, Option.map_eq_none'] at h
      simp [lookupIdentifier, hs, ih h]

/-- C7: `getIdentifier` on the empty string returns the sentinel null
identifier and leaves the context untouched; the sentinel differs from the
handle of any non-empty string; interning the same non-empty content twice
yields the same handle, and interning different non-empty contents yields
different handles. -/
theorem get_identifier_contract (st : ASTContext) (s1 s2 : String)
    (h1 : s1 ≠ "") (h2 : s2 ≠ "") :
    st.getIdentifier "" = (none, st) ∧
    (st.getIdentifier s1).1 ≠ none ∧
    ((st.getIdentifier s1).2.getIdentifier s1).1 = (st.getIdentifier s1).1 ∧
    (s1 ≠ s2 →
      ((st.getIdentifier s1).2.getIdentifier s2).1 ≠
        (st.getIdentifier s1).1) := by
  refine ⟨?_, ?_, ?_, ?_⟩
  · simp [ASTContext.getIdentifier]
  · cases hl : lookupIdentifier st.identifierTable s1 with
    | some i => simp [ASTContext.getIdentifier, h1, hl]
    | none => simp [ASTContext.getIdentifier, h1, hl]
  · cases hl : lookupIdentifier st.identifierTable s1 with
    | some i => simp [ASTContext.getIdentifier, h1, hl]
    | none =>
      simp [ASTContext.getIdentifier, h1, hl, lookupIdentifier_append_self hl]
  · intro hne
    cases hl1 : lookupIdentifier st.identifierTable s1 with
    | some i1 =>
      cases hl2 : lookupIdentifier st.identifierTable s2 with
      | some i2 =>
        simp only [ASTContext.getIdentifier, if_neg h1, if_neg h2, hl1, hl2,
          ne_eq, Option.some.injEq]
        intro hii
        subst hii
        have g1 := lookupIdentifier_getElem hl1
        have g2 := lookupIdentifier_getElem hl2
        rw [g1] at g2
        exact hne (Option.some.inj g2)
      | none =>
        simp only [ASTContext.getIdentifier, if_neg h1, if_neg h2, hl1, hl2,
          ne_eq, Option.some.injEq]
        have := lookupIdentifier_lt hl1
        omega
    | none =>
      cases hl2 : lookupIdentifier (st.identifierTable ++ [s1]) s2 with
      | some i2 =>
        simp only [ASTContext.getIdentifier, if_neg h1, if_neg h2, hl1, hl2,
          ne_eq, Option.some.injEq]
        intro hii
        subst hii
        have g2 := lookupIdentifier_getElem hl2
        rw [List.getElem?_concat_length] at g2
        exact hne (Option.some.inj g2)
      | none =>
        simp only [ASTContext.getIdentifier, if_neg h1, if_neg h2, hl1, hl2,
          ne_eq, Option.some.injEq, List.length_append, List.length_cons,
          List.length_nil]
        omega

/-- C7 witness at concrete strings on the empty context. -/
theorem get_identifier_contract_witness :
    emptyContext.getIdentifier "" = (none, emptyContext) ∧
    (emptyContext.getIdentifier "Foo").1 ≠ none ∧
    ((emptyContext.getIdentifier "Foo").2.getIdentifier "Foo").1 =
      (emptyContext.getIdentifier "Foo").1 ∧
    ("Foo" ≠ "Bar" →
      ((emptyContext.getIdentifier "Foo").2.getIdentifier "Bar").1 ≠
        (emptyContext.getIdentifier "Foo").1) :=
  get_identifier_contract emptyContext "Foo" "Bar" (by decide) (by decide)

/-- When `PolymorphicFunctionType::get` succeeds, the returned identity is
the next arena index and the arena grows by exactly one node. -/
theorem polymorphicFunctionType_get_ok_shape (st : ASTContext)
    (i o p id : Nat) (st' : ASTContext)
    (h : PolymorphicFunctionType.get i o p st = .ok (id, st')) :
    id = st.nodes.length ∧ st'.nodes.length = st.nodes.length + 1 := by
  cases hc : (hasTypeVariable st i || hasTypeVariable st o) with
  | true => simp [PolymorphicFunctionType.get, hc] at h
  | false =>
    have hdef : PolymorphicFunctionType.get i o p st =
        .ok (st.nodes.length, { st with nodes := st.nodes ++
          [⟨.polymorphicFunction i o p,
            isCanonical st i && isCanonical st o, false⟩] }) := by
      simp [PolymorphicFunctionType.get, hc]
    rw [hdef] at h
    injection h with hpair
    injection hpair with h1a h1b
    subst h1a
    subst h1b
    exact ⟨rfl, by simp⟩

/-- C8: `PolymorphicFunctionType::get` is a contract violation when the
input or output carries a type variable; otherwise it always allocates a
fresh node — the returned identity is the next arena index, and any
subsequent call (identical arguments included) returns a different
identity. -/
theorem polymorphic_function_fresh (st : ASTContext) (i o p : Nat) :
    ((hasTypeVariable st i || hasTypeVariable st o) = true →
      ∀ v : Nat × ASTContext, PolymorphicFunctionType.get i o p st ≠ .ok v) ∧
    (∀ id1 : Nat, ∀ st1 : ASTContext,
      PolymorphicFunctionType.get i o p st = .ok (id1, st1) →
      id1 = st.nodes.length ∧
      ∀ i2 o2 p2 id2 : Nat, ∀ st2 : ASTContext,
        PolymorphicFunctionType.get i2 o2 p2 st1 = .ok (id2, st2) →
        id2 ≠ id1) := by
  constructor
  · intro htv v
    simp [PolymorphicFunctionType.get, htv]
  · intro id1 st1 h1
    obtain ⟨ha1, hb1⟩ := polymorphicFunctionType_get_ok_shape st i o p id1 st1 h1
    refine ⟨ha1, ?_⟩
    intro i2 o2 p2 id2 st2 h2
    obtain ⟨ha2, _⟩ :=
      polymorphicFunctionType_get_ok_shape st1 i2 o2 p2 id2 st2 h2
    omega

/-- `ctxTwoExternal` after one successful polymorphic-function allocation
over input and output 0 (node 0 has no type variable, so the allocation
goes through). -/
def ctxAfterPoly : ASTContext :=
  { ctxTwoExternal with nodes := ctxTwoExternal.nodes ++
      [⟨.polymorphicFunction 0 0 0, true, false⟩] }

/-- `ctxAfterPoly` after a second, identical successful allocation. -/
def ctxAfterPoly2 : ASTContext :=
  { ctxAfterPoly with nodes := ctxAfterPoly.nodes ++
      [⟨.polymorphicFunction 0 0 0, true, false⟩] }

/-- C8 witness: a concrete *successful* `PolymorphicFunctionType::get` over
type-variable-free arguments returns the fresh arena index 2; repeating the
identical call on the resulting context succeeds again and returns the
distinct fresh index 3; and the call on the type-variable-carrying input 1
is a contract violation. -/
theorem polymorphic_function_fresh_witness :
    PolymorphicFunctionType.get 0 0 0 ctxTwoExternal =
      .ok (2, ctxAfterPoly) ∧
    (2 : Nat) = ctxTwoExternal.nodes.length ∧
    PolymorphicFunctionType.get 0 0 0 ctxAfterPoly =
      .ok (3, ctxAfterPoly2) ∧
    (3 : Nat) ≠ (2 : Nat) ∧
    (∀ v : Nat × ASTContext,
      PolymorphicFunctionType.get 1 0 0 ctxTwoExternal ≠ .ok v) := by
  have heq : PolymorphicFunctionType.get 0 0 0 ctxTwoExternal =
      .ok (2, ctxAfterPoly) := rfl
  have heq2 : PolymorphicFunctionType.get 0 0 0 ctxAfterPoly =
      .ok (3, ctxAfterPoly2) := rfl
  have h := (polymorphic_function_fresh ctxTwoExternal 0 0 0).2 2
    ctxAfterPoly heq
  exact ⟨heq, h.1, heq2, h.2 0 0 0 3 ctxAfterPoly2 heq2,
    (polymorphic_function_fresh ctxTwoExternal 1 0 0).1 (by decide)⟩

/-- C9: `ArrayType::get` with size 0 is a contract violation; with any
non-zero size it succeeds and the `(base, size)` pair is uniqued to the
returned node in the array table. -/
theorem array_size_contract (st : ASTContext) (b s : Nat) :
    (∀ v : Nat × ASTContext, ArrayType.get b 0 st ≠ .ok v) ∧
    (s ≠ 0 →
      (∃ id1 : Nat, ∃ st1 : ASTContext,
        ArrayType.get b s st = .ok (id1, st1)) ∧
      ∀ id1 : Nat, ∀ st1 : ASTContext,
        ArrayType.get b s st = .ok (id1, st1) →
        findTbl st1.arrayTypes (b, s) = some id1) := by
  constructor
  · intro v
    simp [ArrayType.get]
  · intro hs
    constructor
    · simp only [ArrayType.get, if_neg hs]
      exact ⟨_, _, rfl⟩
    · intro id1 st1 h1
      simp only [ArrayType.get, if_neg hs, Except.ok.injEq,
        Prod.mk.injEq] at h1
      obtain ⟨hid, hst⟩ := h1
      rw [← hst, ← hid]
      exact getOrCreate_find_self _ _ _ _

/-- C9 witness at base 0, sizes 0 and 4, on `ctxOneExternal`. -/
theorem array_size_contract_witness :
    (∀ v : Nat × ASTContext, ArrayType.get 0 0 ctxOneExternal ≠ .ok v) ∧
    ((∃ id1 : Nat, ∃ st1 : ASTContext,
        ArrayType.get 0 4 ctxOneExternal = .ok (id1, st1)) ∧
      ∀ id1 : Nat, ∀ st1 : ASTContext,
        ArrayType.get 0 4 ctxOneExternal = .ok (id1, st1) →
        findTbl st1.arrayTypes (0, 4) = some id1) :=
  ⟨(array_size_contract ctxOneExternal 0 4).1,
   (array_size_contract ctxOneExternal 0 4).2 (by decide)⟩
